import Mathlib

/-!
Shallow embedding of the condition aggregation engine of the repository
(crate knative-conditions, file src/lib.rs).

Modelling choices:
* The generic condition-type parameter of the Rust code (the trait
  ConditionType) becomes a type parameter C with decidable equality; the
  static happy()/dependents() data becomes an explicit ConditionSet value.
* Timestamps (chrono DateTime) are modelled as Nat; Option-ness of the
  last_transition_time field is kept.  Every top-level mutating operation
  receives the current clock value as an explicit argument now, standing
  for the chrono Utc now() calls performed inside the operation.
* A Rust panic (assert, expect) is modelled by returning none from an
  Option-valued function.
* The store Conditions is a plain list of Condition values; the Rust
  iter_mut-based scan find_unhappy_dependent only reads the list, so it is
  embedded as a pure function (the repository's own test
  find_unhappy_dependent_does_not_sort_vec checks that the scan does not
  reorder the store).
-/

set_option maxHeartbeats 1000000
set_option linter.unusedSectionVars false

namespace KnativeConditions

/-- Source enum ConditionStatus: the state of a Condition. Default is Unknown. -/
inductive ConditionStatus
  | True
  | False
  | Unknown
deriving DecidableEq

/-- Source enum ConditionSeverity: the importance of a condition status.
Default is Error. -/
inductive ConditionSeverity
  | Error
  | Warning
  | Info
deriving DecidableEq

/-- Source struct Condition: a custom resource status condition. -/
structure Condition (C : Type) where
  type_ : C
  status : ConditionStatus
  severity : ConditionSeverity
  last_transition_time : Option Nat
  reason : Option String
  message : Option String
deriving DecidableEq

/-- Source struct ConditionSet: how condition variants depend on one another. -/
structure ConditionSet (C : Type) where
  happy : C
  dependents : List C

variable {C : Type} [DecidableEq C]

/-- Source ConditionSet::new: asserts that dependents do not contain the happy
condition (panic modelled as none). -/
def ConditionSet.new (happy : C) (dependents : List C) : Option (ConditionSet C) :=
  if happy ∈ dependents then none
  else some { happy := happy, dependents := dependents }

/-- Source ConditionSet::is_terminal: whether the type determines happiness. -/
def ConditionSet.is_terminal (cs : ConditionSet C) (condition_type : C) : Bool :=
  decide (condition_type ∈ cs.dependents) || decide (cs.happy = condition_type)

/-- Source ConditionSet::severity. -/
def ConditionSet.severity (cs : ConditionSet C) (condition_type : C) : ConditionSeverity :=
  if cs.is_terminal condition_type then ConditionSeverity.Error else ConditionSeverity.Info

/-- Source Condition::is_true. -/
def Condition.is_true (c : Condition C) : Bool :=
  decide (c.status = ConditionStatus.True)

/-- Source Condition::is_false. -/
def Condition.is_false (c : Condition C) : Bool :=
  decide (c.status = ConditionStatus.False)

/-- Source impl PartialOrd for Condition, method partial_cmp. -/
def condCmp (a b : Condition C) : Option Ordering :=
  let time_ord : Option Ordering :=
    match a.last_transition_time, b.last_transition_time with
    | some l, some r => some (compare l r)
    | _, _ => none
  match a.status, b.status with
  | ConditionStatus.False, ConditionStatus.False
  | ConditionStatus.Unknown, ConditionStatus.Unknown
  | ConditionStatus.True, ConditionStatus.True =>
    match time_ord with
    | some o => some o
    | none => some Ordering.eq
  | ConditionStatus.False, _ | ConditionStatus.Unknown, ConditionStatus.True =>
    some Ordering.gt
  | ConditionStatus.Unknown, ConditionStatus.False | ConditionStatus.True, _ =>
    some Ordering.lt

/-- Rust operator a > b on Condition, i.e. partial_cmp giving Greater. -/
def condGT (a b : Condition C) : Bool :=
  decide (condCmp a b = some Ordering.gt)

/-- Source type Conditions: a Vec of Condition. -/
abbrev Conditions (C : Type) := List (Condition C)

/-- Source Conditions::with_conditions: asserts that a condition of the happy
type is present (panic modelled as none). -/
def Conditions.with_conditions (happy : C) (conditions : Conditions C) :
    Option (Conditions C) :=
  if conditions.any (fun c => decide (c.type_ = happy)) then some conditions else none

/-- Source Conditions::get_cond: first stored condition of the given type. -/
def Conditions.get_cond (s : Conditions C) (type_ : C) : Option (Condition C) :=
  s.find? (fun c => decide (c.type_ = type_))

/-- Source Conditions::set_cond: the central upsert.  The first stored
condition of the incoming type is compared with the incoming condition after
substituting the incoming timestamp; on a match nothing changes, otherwise it
is replaced in place with the incoming values restamped to now.  A type not
yet present is stamped and appended at the end. -/
def Conditions.set_cond (now : Nat) (condition : Condition C) :
    Conditions C → Conditions C
  | [] => [{ condition with last_transition_time := some now }]
  | c :: rest =>
    if c.type_ = condition.type_ then
      if { c with last_transition_time := condition.last_transition_time } = condition then
        c :: rest
      else
        { condition with last_transition_time := some now } :: rest
    else
      c :: Conditions.set_cond now condition rest

/-- Source Conditions::mark_true: upsert a True condition built from
Default (severity Error, no reason or message). -/
def Conditions.mark_true (condition_type : C) (now : Nat) (s : Conditions C) :
    Conditions C :=
  Conditions.set_cond now
    { type_ := condition_type, status := ConditionStatus.True,
      severity := ConditionSeverity.Error, last_transition_time := some now,
      reason := none, message := none } s

/-- Source Conditions::mark_true_with_reason. -/
def Conditions.mark_true_with_reason (condition_type : C) (reason : String)
    (message : Option String) (now : Nat) (s : Conditions C) : Conditions C :=
  Conditions.set_cond now
    { type_ := condition_type, status := ConditionStatus.True,
      severity := ConditionSeverity.Error, last_transition_time := some now,
      reason := some reason, message := message } s

/-- Source Conditions::mark_false. -/
def Conditions.mark_false (condition_type : C) (reason : String)
    (message : Option String) (now : Nat) (s : Conditions C) : Conditions C :=
  Conditions.set_cond now
    { type_ := condition_type, status := ConditionStatus.False,
      severity := ConditionSeverity.Error, last_transition_time := some now,
      reason := some reason, message := message } s

/-- Source Conditions::mark_unknown. -/
def Conditions.mark_unknown (condition_type : C) (reason : String)
    (message : Option String) (now : Nat) (s : Conditions C) : Conditions C :=
  Conditions.set_cond now
    { type_ := condition_type, status := ConditionStatus.Unknown,
      severity := ConditionSeverity.Error, last_transition_time := some now,
      reason := some reason, message := message } s

/-- Filter used by ConditionManager::find_unhappy_dependent: non-true terminal
conditions other than the happy one. -/
def isCandidate (cs : ConditionSet C) (cond : Condition C) : Bool :=
  !decide (cond.type_ = cs.happy) && cs.is_terminal cond.type_ && !cond.is_true

/-- Reduction step of find_unhappy_dependent: keep the accumulator unless the
new condition compares strictly greater. -/
def pick (unhappy cond : Condition C) : Condition C :=
  if condGT cond unhappy then cond else unhappy

/-- Source ConditionManager::get_top_level_condition (panic modelled as none). -/
def ConditionManager.get_top_level_condition (cs : ConditionSet C)
    (s : Conditions C) : Option (Condition C) :=
  Conditions.get_cond s cs.happy

/-- Source ConditionManager::find_unhappy_dependent: filter to non-true
terminal dependents, then reduce preferring the strictly greater condition. -/
def ConditionManager.find_unhappy_dependent (cs : ConditionSet C)
    (s : Conditions C) : Option (Condition C) :=
  match s.filter (isCandidate cs) with
  | [] => none
  | h :: t => some (t.foldl pick h)

/-- Source ConditionManager::recompute_happiness. -/
def ConditionManager.recompute_happiness (cs : ConditionSet C)
    (condition_type : C) (now : Nat) (s : Conditions C) : Conditions C :=
  match ConditionManager.find_unhappy_dependent cs s with
  | some dependent =>
    Conditions.set_cond now
      { type_ := cs.happy, status := dependent.status,
        severity := cs.severity cs.happy, last_transition_time := some now,
        reason := dependent.reason, message := dependent.message } s
  | none =>
    if condition_type = cs.happy then s
    else
      Conditions.set_cond now
        { type_ := cs.happy, status := ConditionStatus.True,
          severity := cs.severity cs.happy, last_transition_time := some now,
          reason := none, message := none } s

/-- Source ConditionManager::mark_true. -/
def ConditionManager.mark_true (cs : ConditionSet C) (condition_type : C)
    (now : Nat) (s : Conditions C) : Conditions C :=
  ConditionManager.recompute_happiness cs condition_type now
    (Conditions.mark_true condition_type now s)

/-- Source ConditionManager::mark_true_with_reason. -/
def ConditionManager.mark_true_with_reason (cs : ConditionSet C)
    (condition_type : C) (reason : String) (message : Option String)
    (now : Nat) (s : Conditions C) : Conditions C :=
  ConditionManager.recompute_happiness cs condition_type now
    (Conditions.mark_true_with_reason condition_type reason message now s)

/-- Source ConditionManager::mark_false: set the condition false, and also the
happy condition if the type is a dependent. -/
def ConditionManager.mark_false (cs : ConditionSet C) (condition_type : C)
    (reason : String) (message : Option String) (now : Nat)
    (s : Conditions C) : Conditions C :=
  let s1 := Conditions.mark_false condition_type reason message now s
  if condition_type ∈ cs.dependents then
    Conditions.mark_false cs.happy reason message now s1
  else s1

/-- Source ConditionManager::mark_unknown.  The top-level condition is only
consulted (and can only panic, modelled as none) inside the branch where the
unhappy dependent found is false. -/
def ConditionManager.mark_unknown (cs : ConditionSet C) (condition_type : C)
    (reason : String) (message : Option String) (now : Nat)
    (s : Conditions C) : Option (Conditions C) :=
  let s1 := Conditions.mark_unknown condition_type reason message now s
  match ConditionManager.find_unhappy_dependent cs s1 with
  | some dependent =>
    if dependent.is_false then
      match ConditionManager.get_top_level_condition cs s1 with
      | none => none
      | some top =>
        if !top.is_false then
          some (ConditionManager.mark_false cs cs.happy reason message now s1)
        else some s1
    else some s1
  | none =>
    if cs.is_terminal condition_type then
      some (Conditions.mark_unknown cs.happy reason message now s1)
    else some s1

/-! Helper and specification-side definitions. -/

/-- Value equality on conditions: every field except the timestamp. -/
def valueEq (a b : Condition C) : Prop :=
  a.type_ = b.type_ ∧ a.status = b.status ∧ a.severity = b.severity ∧
    a.reason = b.reason ∧ a.message = b.message

/-- Sequence of stored condition types, in store order. -/
def typesOf (s : Conditions C) : List C :=
  s.map Condition.type_

/-- Relation between a store and the store after a mutation: the type sequence
is only ever extended on the right (existing entries keep their positions) and
stays duplicate free. -/
def StoreExtends (s s' : Conditions C) : Prop :=
  (∃ new, typesOf s' = typesOf s ++ new) ∧ ((typesOf s).Nodup → (typesOf s').Nodup)

/-- One mutation through the manager. -/
inductive Mutation (C : Type) where
  | mtrue (t : C)
  | mtrueWithReason (t : C) (reason : String) (message : Option String)
  | mfalse (t : C) (reason : String) (message : Option String)
  | munknown (t : C) (reason : String) (message : Option String)

/-- Run one manager mutation at a clock instant (none models a panic). -/
def applyMutation (cs : ConditionSet C) (now : Nat) (m : Mutation C)
    (s : Conditions C) : Option (Conditions C) :=
  match m with
  | Mutation.mtrue t => some (ConditionManager.mark_true cs t now s)
  | Mutation.mtrueWithReason t r msg =>
    some (ConditionManager.mark_true_with_reason cs t r msg now s)
  | Mutation.mfalse t r msg => some (ConditionManager.mark_false cs t r msg now s)
  | Mutation.munknown t r msg => ConditionManager.mark_unknown cs t r msg now s

/-- Run a sequence of manager mutations, each with its own clock instant. -/
def applyMutations (cs : ConditionSet C) :
    List (Nat × Mutation C) → Conditions C → Option (Conditions C)
  | [], s => some s
  | (now, m) :: ms, s => (applyMutation cs now m s).bind (applyMutations cs ms)

/-- Modelled from the claim wording for find_unhappy_dependent: a stored
condition is considered when its type is terminal, is not the happy type, and
its status is not True. -/
def specCandidate (cs : ConditionSet C) (cond : Condition C) : Bool :=
  cs.is_terminal cond.type_ && !decide (cond.type_ = cs.happy) &&
    !decide (cond.status = ConditionStatus.True)

/-- Modelled from the claim wording: a condition outranks the current choice
when its status False outranks status Unknown, or the statuses are equal and
its timestamp is strictly later; every other comparison (equal timestamps,
a missing timestamp, equal Unknown against False, ...) keeps the current,
first-found choice. -/
def specOutranks (d cur : Condition C) : Bool :=
  (decide (d.status = ConditionStatus.False) &&
    decide (cur.status = ConditionStatus.Unknown)) ||
  (decide (d.status = cur.status) &&
    match d.last_transition_time, cur.last_transition_time with
    | some td, some tc => decide (tc < td)
    | _, _ => false)

/-- Modelled from the claim wording: scan the considered conditions in store
order, keeping the first found unless a later one strictly outranks it. -/
def specSelect (cs : ConditionSet C) (s : Conditions C) : Option (Condition C) :=
  match s.filter (specCandidate cs) with
  | [] => none
  | h :: t => some (t.foldl (fun cur d => if specOutranks d cur then d else cur) h)

/-- Modelled from the spec wording of recompute_happiness: mirror the unhappy
dependent into the happy condition with severity Error, or else upsert the
happy condition True with severity Error and cleared reason and message,
unless the triggering type is the happy type itself, which was just set
directly and must not be overwritten. -/
def recomputeSpec (cs : ConditionSet C) (triggering : C) (now : Nat)
    (s : Conditions C) : Conditions C :=
  match ConditionManager.find_unhappy_dependent cs s with
  | some d =>
    Conditions.set_cond now
      { type_ := cs.happy, status := d.status, severity := ConditionSeverity.Error,
        last_transition_time := some now, reason := d.reason, message := d.message } s
  | none =>
    if triggering = cs.happy then s
    else
      Conditions.set_cond now
        { type_ := cs.happy, status := ConditionStatus.True,
          severity := ConditionSeverity.Error, last_transition_time := some now,
          reason := none, message := none } s

/-- The happy condition already agrees, in every field but the timestamp, with
what recompute_happiness would upsert for the current store. -/
def happyConsistent (cs : ConditionSet C) (s : Conditions C) : Prop :=
  match ConditionManager.find_unhappy_dependent cs s with
  | some d => ∃ h, Conditions.get_cond s cs.happy = some h ∧
      h.status = d.status ∧ h.severity = ConditionSeverity.Error ∧
      h.reason = d.reason ∧ h.message = d.message
  | none => ∃ h, Conditions.get_cond s cs.happy = some h ∧
      h.status = ConditionStatus.True ∧ h.severity = ConditionSeverity.Error ∧
      h.reason = none ∧ h.message = none

/-- Concrete condition over the type domain Nat, for witnesses. -/
def condW (t : Nat) (st : ConditionStatus) (ltt : Option Nat) : Condition Nat :=
  { type_ := t, status := st, severity := ConditionSeverity.Error,
    last_transition_time := ltt, reason := none, message := none }

/-- Concrete configuration for witnesses: happy type 0, dependents 1 and 2. -/
def csW : ConditionSet Nat := { happy := 0, dependents := [1, 2] }

/-! Lemma kit for the upsert on the store. -/

theorem valueEq_refl (a : Condition C) : valueEq a a :=
  ⟨rfl, rfl, rfl, rfl, rfl⟩

theorem valueEq_trans {a b c : Condition C} (h1 : valueEq a b) (h2 : valueEq b c) :
    valueEq a c :=
  ⟨h1.1.trans h2.1, h1.2.1.trans h2.2.1, h1.2.2.1.trans h2.2.2.1,
    h1.2.2.2.1.trans h2.2.2.2.1, h1.2.2.2.2.trans h2.2.2.2.2⟩

/-- The timestamp-substitution test in set_cond is exactly value equality. -/
theorem sub_eq_valueEq (e c : Condition C) :
    ({ e with last_transition_time := c.last_transition_time } = c) ↔ valueEq e c := by
  cases e; cases c; simp [valueEq]

theorem valueEq_restamp (c : Condition C) (now : Nat) :
    valueEq { c with last_transition_time := some now } c :=
  ⟨rfl, rfl, rfl, rfl, rfl⟩

theorem get_cond_nil (t : C) : Conditions.get_cond ([] : Conditions C) t = none := rfl

theorem get_cond_cons (c : Condition C) (rest : Conditions C) (t : C) :
    Conditions.get_cond (c :: rest) t =
      if c.type_ = t then some c else Conditions.get_cond rest t := by
  by_cases h : c.type_ = t <;> simp [Conditions.get_cond, List.find?_cons, h]

theorem set_cond_nil (now : Nat) (c : Condition C) :
    Conditions.set_cond now c [] = [{ c with last_transition_time := some now }] := rfl

theorem set_cond_cons (now : Nat) (c x : Condition C) (rest : Conditions C) :
    Conditions.set_cond now c (x :: rest) =
      if x.type_ = c.type_ then
        if { x with last_transition_time := c.last_transition_time } = c then x :: rest
        else { c with last_transition_time := some now } :: rest
      else x :: Conditions.set_cond now c rest := rfl

/-- New type: the incoming condition is stamped and appended at the end. -/
theorem set_cond_append (now : Nat) (c : Condition C) (s : Conditions C)
    (h : Conditions.get_cond s c.type_ = none) :
    Conditions.set_cond now c s = s ++ [{ c with last_transition_time := some now }] := by
  induction s with
  | nil => rfl
  | cons x rest ih =>
    rw [get_cond_cons] at h
    by_cases hx : x.type_ = c.type_
    · simp [hx] at h
    · simp only [hx, if_false] at h
      rw [set_cond_cons, if_neg hx, ih h, List.cons_append]

/-- Value-equal upsert of an existing type: the store is untouched. -/
theorem set_cond_keep (now : Nat) (c : Condition C) (s : Conditions C) (e : Condition C)
    (he : Conditions.get_cond s c.type_ = some e) (hv : valueEq e c) :
    Conditions.set_cond now c s = s := by
  induction s with
  | nil => simp [Conditions.get_cond] at he
  | cons x rest ih =>
    rw [get_cond_cons] at he
    by_cases hx : x.type_ = c.type_
    · simp only [hx, if_true] at he
      obtain rfl : x = e := by injection he
      rw [set_cond_cons, if_pos hx, if_pos ((sub_eq_valueEq x c).mpr hv)]
    · simp only [hx, if_false] at he
      rw [set_cond_cons, if_neg hx, ih he]

/-- Non-value-equal upsert of an existing type: the first stored condition of
that type is replaced in place by the restamped incoming condition. -/
theorem set_cond_swap (now : Nat) (c : Condition C) (s : Conditions C) (e : Condition C)
    (he : Conditions.get_cond s c.type_ = some e) (hv : ¬ valueEq e c) :
    ∃ p q, s = p ++ e :: q ∧ (∀ x ∈ p, x.type_ ≠ c.type_) ∧
      Conditions.set_cond now c s =
        p ++ { c with last_transition_time := some now } :: q := by
  induction s with
  | nil => simp [Conditions.get_cond] at he
  | cons x rest ih =>
    rw [get_cond_cons] at he
    by_cases hx : x.type_ = c.type_
    · simp only [hx, if_true] at he
      obtain rfl : x = e := by injection he
      refine ⟨[], rest, rfl, by simp, ?_⟩
      have hne : ¬ ({ x with last_transition_time := c.last_transition_time } = c) :=
        fun h => hv ((sub_eq_valueEq x c).mp h)
      rw [set_cond_cons, if_pos hx, if_neg hne]
      simp
    · simp only [hx, if_false] at he
      obtain ⟨p, q, hs, hp, hset⟩ := ih he
      refine ⟨x :: p, q, by simp [hs], ?_, ?_⟩
      · intro y hy
        rcases List.mem_cons.mp hy with rfl | hy
        · exact hx
        · exact hp y hy
      · rw [set_cond_cons, if_neg hx, hset, List.cons_append]

/-- After an upsert, the first stored condition of the incoming type is value
equal to the incoming condition. -/
theorem get_cond_set_cond_self (now : Nat) (c : Condition C) (s : Conditions C) :
    ∃ e, Conditions.get_cond (Conditions.set_cond now c s) c.type_ = some e ∧
      valueEq e c := by
  induction s with
  | nil =>
    refine ⟨{ c with last_transition_time := some now }, ?_, valueEq_restamp c now⟩
    rw [set_cond_nil, get_cond_cons]
    simp
  | cons x rest ih =>
    by_cases hx : x.type_ = c.type_
    · by_cases hveq : ({ x with last_transition_time := c.last_transition_time } = c)
      · refine ⟨x, ?_, (sub_eq_valueEq x c).mp hveq⟩
        rw [set_cond_cons, if_pos hx, if_pos hveq, get_cond_cons, if_pos hx]
      · refine ⟨{ c with last_transition_time := some now }, ?_, valueEq_restamp c now⟩
        rw [set_cond_cons, if_pos hx, if_neg hveq, get_cond_cons]
        simp
    · obtain ⟨e, he, hv⟩ := ih
      refine ⟨e, ?_, hv⟩
      rw [set_cond_cons, if_neg hx, get_cond_cons, if_neg hx, he]

/-- An upsert leaves lookups of every other type unchanged. -/
theorem get_cond_set_cond_ne (now : Nat) (c : Condition C) (s : Conditions C) (t : C)
    (h : t ≠ c.type_) :
    Conditions.get_cond (Conditions.set_cond now c s) t = Conditions.get_cond s t := by
  induction s with
  | nil =>
    rw [set_cond_nil, get_cond_cons, get_cond_nil]
    simp only [show ¬ (({ c with last_transition_time := some now } :
      Condition C).type_ = t) from fun hc => h hc.symm, if_false]
  | cons x rest ih =>
    by_cases hx : x.type_ = c.type_
    · by_cases hveq : ({ x with last_transition_time := c.last_transition_time } = c)
      · rw [set_cond_cons, if_pos hx, if_pos hveq]
      · have hxt : ¬ (x.type_ = t) := fun hh => h (hh.symm.trans hx)
        rw [set_cond_cons, if_pos hx, if_neg hveq, get_cond_cons, get_cond_cons,
          if_neg hxt, if_neg (show ¬ (({ c with last_transition_time := some now } :
            Condition C).type_ = t) from fun hc => h hc.symm)]
    · rw [set_cond_cons, if_neg hx, get_cond_cons, get_cond_cons, ih]

/-- Entries of other types survive an upsert. -/
theorem mem_set_cond_of_ne (now : Nat) (c : Condition C) (s : Conditions C)
    (x : Condition C) (hx : x ∈ s) (h : x.type_ ≠ c.type_) :
    x ∈ Conditions.set_cond now c s := by
  induction s with
  | nil => simp at hx
  | cons y rest ih =>
    rw [set_cond_cons]
    by_cases hy : y.type_ = c.type_
    · rcases List.mem_cons.mp hx with rfl | hx
      · exact absurd hy h
      · by_cases hveq : ({ y with last_transition_time := c.last_transition_time } = c)
        · rw [if_pos hy, if_pos hveq]
          exact List.mem_cons_of_mem y hx
        · rw [if_pos hy, if_neg hveq]
          exact List.mem_cons_of_mem _ hx
    · rcases List.mem_cons.mp hx with rfl | hx
      · rw [if_neg hy]
        exact List.mem_cons_self x _
      · rw [if_neg hy]
        exact List.mem_cons_of_mem y (ih hx)

theorem valueEq_symm {a b : Condition C} (h : valueEq a b) : valueEq b a :=
  ⟨h.1.symm, h.2.1.symm, h.2.2.1.symm, h.2.2.2.1.symm, h.2.2.2.2.symm⟩

/-- Re-upserting a value-equal condition is a no-op, whatever the clock says. -/
theorem set_cond_idem (now now2 : Nat) (c c2 : Condition C) (hv : valueEq c2 c)
    (s : Conditions C) :
    Conditions.set_cond now2 c2 (Conditions.set_cond now c s) =
      Conditions.set_cond now c s := by
  obtain ⟨e, he, hev⟩ := get_cond_set_cond_self now c s
  have he2 : Conditions.get_cond (Conditions.set_cond now c s) c2.type_ = some e := by
    rw [hv.1]; exact he
  exact set_cond_keep _ _ _ e he2 (valueEq_trans hev (valueEq_symm hv))

/-- Effect of an upsert on the sequence of stored types. -/
theorem typesOf_set_cond (now : Nat) (c : Condition C) (s : Conditions C) :
    typesOf (Conditions.set_cond now c s) =
      if c.type_ ∈ typesOf s then typesOf s else typesOf s ++ [c.type_] := by
  induction s with
  | nil => simp [typesOf, set_cond_nil]
  | cons x rest ih =>
    by_cases hx : x.type_ = c.type_
    · by_cases hveq : ({ x with last_transition_time := c.last_transition_time } = c)
      · rw [set_cond_cons, if_pos hx, if_pos hveq]
        simp [typesOf, List.mem_cons, hx]
      · rw [set_cond_cons, if_pos hx, if_neg hveq]
        simp [typesOf, List.mem_cons, hx]
    · rw [set_cond_cons, if_neg hx]
      simp only [typesOf, List.map_cons] at ih ⊢
      rw [ih]
      have hcx : ¬ (c.type_ = x.type_) := fun h => hx h.symm
      by_cases hmem : c.type_ ∈ rest.map Condition.type_
      · simp [List.mem_cons, hcx, hmem]
      · simp [List.mem_cons, hcx, hmem]

theorem storeExtends_refl (s : Conditions C) : StoreExtends s s :=
  ⟨⟨[], by simp⟩, id⟩

theorem storeExtends_trans {s1 s2 s3 : Conditions C}
    (h1 : StoreExtends s1 s2) (h2 : StoreExtends s2 s3) : StoreExtends s1 s3 := by
  obtain ⟨⟨n1, e1⟩, d1⟩ := h1
  obtain ⟨⟨n2, e2⟩, d2⟩ := h2
  exact ⟨⟨n1 ++ n2, by rw [e2, e1, List.append_assoc]⟩, fun h => d2 (d1 h)⟩

theorem storeExtends_set_cond (now : Nat) (c : Condition C) (s : Conditions C) :
    StoreExtends s (Conditions.set_cond now c s) := by
  constructor
  · by_cases hmem : c.type_ ∈ typesOf s
    · exact ⟨[], by rw [typesOf_set_cond, if_pos hmem, List.append_nil]⟩
    · exact ⟨[c.type_], by rw [typesOf_set_cond, if_neg hmem]⟩
  · intro h
    rw [typesOf_set_cond]
    by_cases hmem : c.type_ ∈ typesOf s
    · rwa [if_pos hmem]
    · rw [if_neg hmem, List.nodup_append]
      refine ⟨h, List.nodup_singleton _, ?_⟩
      intro a ha hb
      rw [List.mem_singleton] at hb
      exact hmem (hb ▸ ha)

theorem storeExtends_recompute (cs : ConditionSet C) (t : C) (now : Nat)
    (s : Conditions C) :
    StoreExtends s (ConditionManager.recompute_happiness cs t now s) := by
  rcases hfind : ConditionManager.find_unhappy_dependent cs s with _ | d
  · simp only [ConditionManager.recompute_happiness, hfind]
    by_cases ht : t = cs.happy
    · rw [if_pos ht]; exact storeExtends_refl s
    · rw [if_neg ht]; exact storeExtends_set_cond _ _ _
  · simp only [ConditionManager.recompute_happiness, hfind]
    exact storeExtends_set_cond _ _ _

theorem storeExtends_man_mark_true (cs : ConditionSet C) (t : C) (now : Nat)
    (s : Conditions C) :
    StoreExtends s (ConditionManager.mark_true cs t now s) :=
  storeExtends_trans (storeExtends_set_cond _ _ _) (storeExtends_recompute _ _ _ _)

theorem storeExtends_man_mark_true_with_reason (cs : ConditionSet C) (t : C)
    (r : String) (m : Option String) (now : Nat) (s : Conditions C) :
    StoreExtends s (ConditionManager.mark_true_with_reason cs t r m now s) :=
  storeExtends_trans (storeExtends_set_cond _ _ _) (storeExtends_recompute _ _ _ _)

theorem storeExtends_man_mark_false (cs : ConditionSet C) (t : C)
    (r : String) (m : Option String) (now : Nat) (s : Conditions C) :
    StoreExtends s (ConditionManager.mark_false cs t r m now s) := by
  rw [ConditionManager.mark_false]
  by_cases hd : t ∈ cs.dependents
  · rw [if_pos hd]
    exact storeExtends_trans (storeExtends_set_cond _ _ _) (storeExtends_set_cond _ _ _)
  · rw [if_neg hd]
    exact storeExtends_set_cond _ _ _

theorem storeExtends_man_mark_unknown (cs : ConditionSet C) (t : C)
    (r : String) (m : Option String) (now : Nat) (s s' : Conditions C)
    (h : ConditionManager.mark_unknown cs t r m now s = some s') :
    StoreExtends s s' := by
  rw [ConditionManager.mark_unknown] at h
  have hbase : StoreExtends s (Conditions.mark_unknown t r m now s) :=
    storeExtends_set_cond _ _ _
  rcases hfind : ConditionManager.find_unhappy_dependent cs
      (Conditions.mark_unknown t r m now s) with _ | d
  · rw [hfind] at h
    by_cases hterm : cs.is_terminal t
    · simp only [hterm, if_true] at h
      obtain rfl := Option.some.inj h
      exact storeExtends_trans hbase (storeExtends_set_cond _ _ _)
    · simp only [hterm, Bool.false_eq_true, if_false] at h
      obtain rfl := Option.some.inj h
      exact hbase
  · rw [hfind] at h
    by_cases hdf : d.is_false
    · simp only [hdf, if_true] at h
      rcases htop : ConditionManager.get_top_level_condition cs
          (Conditions.mark_unknown t r m now s) with _ | top
      · rw [htop] at h; cases h
      · rw [htop] at h
        by_cases htf : top.is_false
        · simp only [htf, Bool.not_true, Bool.false_eq_true, if_false] at h
          obtain rfl := Option.some.inj h
          exact hbase
        · simp only [htf, Bool.not_false, if_true] at h
          obtain rfl := Option.some.inj h
          exact storeExtends_trans hbase (storeExtends_man_mark_false _ _ _ _ _ _)
    · simp only [hdf, Bool.false_eq_true, if_false] at h
      obtain rfl := Option.some.inj h
      exact hbase

theorem storeExtends_applyMutation (cs : ConditionSet C) (now : Nat)
    (m : Mutation C) (s s' : Conditions C)
    (h : applyMutation cs now m s = some s') : StoreExtends s s' := by
  cases m with
  | mtrue t =>
    obtain rfl := Option.some.inj h
    exact storeExtends_man_mark_true _ _ _ _
  | mtrueWithReason t r msg =>
    obtain rfl := Option.some.inj h
    exact storeExtends_man_mark_true_with_reason _ _ _ _ _ _
  | mfalse t r msg =>
    obtain rfl := Option.some.inj h
    exact storeExtends_man_mark_false _ _ _ _ _ _
  | munknown t r msg => exact storeExtends_man_mark_unknown _ _ _ _ _ _ _ h

theorem storeExtends_applyMutations (cs : ConditionSet C)
    (ms : List (Nat × Mutation C)) (s s' : Conditions C)
    (h : applyMutations cs ms s = some s') : StoreExtends s s' := by
  induction ms generalizing s with
  | nil =>
    obtain rfl := Option.some.inj h
    exact storeExtends_refl s
  | cons nm ms ih =>
    obtain ⟨now, m⟩ := nm
    rw [applyMutations] at h
    rcases hstep : applyMutation cs now m s with _ | s1
    · rw [hstep] at h; cases h
    · rw [hstep, Option.some_bind] at h
      exact storeExtends_trans (storeExtends_applyMutation _ _ _ _ _ hstep) (ih _ h)

/-! Lemma kit for the reduce in find_unhappy_dependent. -/

theorem pick_or (a c : Condition C) : pick a c = a ∨ pick a c = c := by
  rw [pick]; split
  · exact Or.inr rfl
  · exact Or.inl rfl

theorem foldl_pick_mem (h : Condition C) (t : List (Condition C)) :
    t.foldl pick h ∈ h :: t := by
  induction t generalizing h with
  | nil => simp
  | cons c t ih =>
    rw [List.foldl_cons]
    rcases List.mem_cons.mp (ih (pick h c)) with he | hm
    · rcases pick_or h c with hp | hp
      · rw [he, hp]; exact List.mem_cons_self _ _
      · rw [he, hp]; exact List.mem_cons_of_mem _ (List.mem_cons_self _ _)
    · exact List.mem_cons_of_mem _ (List.mem_cons_of_mem _ hm)

/-- The reduce step yields a False condition exactly when one of its two
arguments is False: a False condition always outranks a non-False one. -/
theorem pick_status_false (a c : Condition C) :
    ((pick a c).status = ConditionStatus.False) ↔
      (a.status = ConditionStatus.False ∨ c.status = ConditionStatus.False) := by
  rcases a with ⟨ta, sa, va, la, ra, ma⟩
  rcases c with ⟨tc, sc, vc, lc, rc, mc⟩
  cases sa <;> cases sc <;> cases la <;> cases lc <;>
    simp only [pick, condGT, condCmp] <;>
    (try split) <;>
    simp_all

/-- The reduce yields a False condition exactly when some input is False. -/
theorem foldl_pick_false (h : Condition C) (t : List (Condition C)) :
    ((t.foldl pick h).status = ConditionStatus.False) ↔
      (h.status = ConditionStatus.False ∨
        ∃ c ∈ t, c.status = ConditionStatus.False) := by
  induction t generalizing h with
  | nil => simp
  | cons c t ih =>
    rw [List.foldl_cons, ih, pick_status_false]
    constructor
    · rintro ((hh | hc) | ⟨x, hx, hxf⟩)
      · exact Or.inl hh
      · exact Or.inr ⟨c, List.mem_cons_self _ _, hc⟩
      · exact Or.inr ⟨x, List.mem_cons_of_mem _ hx, hxf⟩
    · rintro (hh | ⟨x, hx, hxf⟩)
      · exact Or.inl (Or.inl hh)
      · rcases List.mem_cons.mp hx with rfl | hx
        · exact Or.inl (Or.inr hxf)
        · exact Or.inr ⟨x, hx, hxf⟩

/-- On conditions that are not True, the source comparison agrees with the
claim's described preference. -/
theorem pick_eq_spec (a c : Condition C) (ha : a.status ≠ ConditionStatus.True)
    (hc : c.status ≠ ConditionStatus.True) :
    pick a c = if specOutranks c a then c else a := by
  rcases a with ⟨ta, sa, va, la, ra, ma⟩
  rcases c with ⟨tc, sc, vc, lc, rc, mc⟩
  cases sa <;> cases sc <;> cases la <;> cases lc <;>
    first
    | exact absurd rfl ha
    | exact absurd rfl hc
    | simp [pick, condGT, condCmp, specOutranks, Nat.compare_eq_gt]

theorem foldl_pick_eq_spec (t : List (Condition C)) (h : Condition C)
    (hall : ∀ x ∈ h :: t, x.status ≠ ConditionStatus.True) :
    t.foldl pick h = t.foldl (fun cur d => if specOutranks d cur then d else cur) h := by
  induction t generalizing h with
  | nil => rfl
  | cons c t ih =>
    rw [List.foldl_cons, List.foldl_cons]
    have hh := hall h (List.mem_cons_self _ _)
    have hc := hall c (List.mem_cons_of_mem _ (List.mem_cons_self _ _))
    rw [← pick_eq_spec h c hh hc]
    apply ih
    intro x hx
    rcases List.mem_cons.mp hx with rfl | hx
    · rcases pick_or h c with hp | hp <;> rw [hp]
      · exact hh
      · exact hc
    · exact hall x (List.mem_cons_of_mem _ (List.mem_cons_of_mem _ hx))

theorem isCandidate_iff (cs : ConditionSet C) (x : Condition C) :
    isCandidate cs x = true ↔
      (x.type_ ≠ cs.happy ∧ cs.is_terminal x.type_ = true ∧
        x.status ≠ ConditionStatus.True) := by
  rw [isCandidate, Condition.is_true]
  simp [Bool.and_eq_true, and_assoc]

theorem specCandidate_eq_isCandidate (cs : ConditionSet C) (c : Condition C) :
    specCandidate cs c = isCandidate cs c := by
  rw [specCandidate, isCandidate, Condition.is_true]
  cases hterm : cs.is_terminal c.type_ <;>
    by_cases hh : c.type_ = cs.happy <;>
    by_cases hs : c.status = ConditionStatus.True <;>
    simp [hh, hs]

theorem find_none_iff (cs : ConditionSet C) (s : Conditions C) :
    ConditionManager.find_unhappy_dependent cs s = none ↔
      s.filter (isCandidate cs) = [] := by
  rcases hf : s.filter (isCandidate cs) with _ | ⟨h, t⟩ <;>
    simp [ConditionManager.find_unhappy_dependent, hf]

theorem find_some_mem (cs : ConditionSet C) (s : Conditions C) (d : Condition C)
    (h : ConditionManager.find_unhappy_dependent cs s = some d) :
    d ∈ s ∧ isCandidate cs d = true := by
  rcases hf : s.filter (isCandidate cs) with _ | ⟨x, t⟩
  · simp [ConditionManager.find_unhappy_dependent, hf] at h
  · simp only [ConditionManager.find_unhappy_dependent, hf] at h
    obtain rfl := Option.some.inj h
    have hm : t.foldl pick x ∈ s.filter (isCandidate cs) := by
      rw [hf]; exact foldl_pick_mem x t
    exact ⟨(List.mem_filter.mp hm).1, (List.mem_filter.mp hm).2⟩

/-- A stored False candidate forces find_unhappy_dependent to return a False
condition. -/
theorem find_false_of_mem (cs : ConditionSet C) (s : Conditions C)
    (a : Condition C) (ha : a ∈ s) (hcand : isCandidate cs a = true)
    (hfa : a.status = ConditionStatus.False) :
    ∃ d, ConditionManager.find_unhappy_dependent cs s = some d ∧
      d.status = ConditionStatus.False := by
  have hmem : a ∈ s.filter (isCandidate cs) := List.mem_filter.mpr ⟨ha, hcand⟩
  rcases hf : s.filter (isCandidate cs) with _ | ⟨h, t⟩
  · rw [hf] at hmem; cases hmem
  · refine ⟨t.foldl pick h, by simp [ConditionManager.find_unhappy_dependent, hf], ?_⟩
    rw [foldl_pick_false]
    rw [hf] at hmem
    rcases List.mem_cons.mp hmem with rfl | hmem
    · exact Or.inl hfa
    · exact Or.inr ⟨a, hmem, hfa⟩

/-- Upserting a condition of a non-terminal type does not change the candidate
sublist that find_unhappy_dependent inspects. -/
theorem filter_isCandidate_set_cond_not_terminal (cs : ConditionSet C) (now : Nat)
    (c : Condition C) (s : Conditions C) (hterm : cs.is_terminal c.type_ = false) :
    (Conditions.set_cond now c s).filter (isCandidate cs) =
      s.filter (isCandidate cs) := by
  have hnc : ∀ x : Condition C, x.type_ = c.type_ → isCandidate cs x = false := by
    intro x hx
    rw [isCandidate, hx, hterm]
    simp
  have hnew : isCandidate cs { c with last_transition_time := some now } = false :=
    hnc _ rfl
  induction s with
  | nil =>
    rw [set_cond_nil]
    simp [List.filter_cons, hnew]
  | cons x rest ih =>
    by_cases hx : x.type_ = c.type_
    · by_cases hveq : ({ x with last_transition_time := c.last_transition_time } = c)
      · rw [set_cond_cons, if_pos hx, if_pos hveq]
      · rw [set_cond_cons, if_pos hx, if_neg hveq]
        simp [List.filter_cons, hnew, hnc x hx]
    · rw [set_cond_cons, if_neg hx]
      simp [List.filter_cons, ih]

/-- The happy type is always terminal, so its severity is always Error. -/
theorem severity_happy (cs : ConditionSet C) :
    cs.severity cs.happy = ConditionSeverity.Error := by
  rw [ConditionSet.severity, ConditionSet.is_terminal]
  simp

/-- The source recompute agrees with the specification-side description. -/
theorem recompute_eq_spec (cs : ConditionSet C) (t : C) (now : Nat)
    (s : Conditions C) :
    ConditionManager.recompute_happiness cs t now s = recomputeSpec cs t now s := by
  rw [ConditionManager.recompute_happiness, recomputeSpec, severity_happy]

/-- After the manager forces the happy condition False, the stored happy
condition is False with the given reason and message. -/
theorem get_cond_man_mark_false_self (cs : ConditionSet C) (r : String)
    (m : Option String) (now : Nat) (s : Conditions C) :
    ∃ h, Conditions.get_cond (ConditionManager.mark_false cs cs.happy r m now s)
        cs.happy = some h ∧ h.status = ConditionStatus.False ∧
      h.reason = some r ∧ h.message = m := by
  rw [ConditionManager.mark_false]
  by_cases hdep : cs.happy ∈ cs.dependents
  · rw [if_pos hdep]
    obtain ⟨h, hh, hv⟩ := get_cond_set_cond_self now
      { type_ := cs.happy, status := ConditionStatus.False,
        severity := ConditionSeverity.Error, last_transition_time := some now,
        reason := some r, message := m }
      (Conditions.mark_false cs.happy r m now s)
    exact ⟨h, hh, hv.2.1, hv.2.2.2.1, hv.2.2.2.2⟩
  · rw [if_neg hdep]
    obtain ⟨h, hh, hv⟩ := get_cond_set_cond_self now
      { type_ := cs.happy, status := ConditionStatus.False,
        severity := ConditionSeverity.Error, last_transition_time := some now,
        reason := some r, message := m } s
    exact ⟨h, hh, hv.2.1, hv.2.2.2.1, hv.2.2.2.2⟩

/-- Branch equations of the source mark_unknown. -/
theorem mark_unknown_eq_escalate (cs : ConditionSet C) (t : C) (r : String)
    (m : Option String) (now : Nat) (s : Conditions C) (d top : Condition C)
    (hd : ConditionManager.find_unhappy_dependent cs
        (Conditions.mark_unknown t r m now s) = some d)
    (hdf : d.is_false = true)
    (htop : Conditions.get_cond (Conditions.mark_unknown t r m now s) cs.happy =
      some top)
    (htf : top.is_false = false) :
    ConditionManager.mark_unknown cs t r m now s =
      some (ConditionManager.mark_false cs cs.happy r m now
        (Conditions.mark_unknown t r m now s)) := by
  simp only [ConditionManager.mark_unknown, ConditionManager.get_top_level_condition,
    hd, hdf, htop, htf, Bool.not_false, if_true]

theorem mark_unknown_eq_top_false (cs : ConditionSet C) (t : C) (r : String)
    (m : Option String) (now : Nat) (s : Conditions C) (d top : Condition C)
    (hd : ConditionManager.find_unhappy_dependent cs
        (Conditions.mark_unknown t r m now s) = some d)
    (hdf : d.is_false = true)
    (htop : Conditions.get_cond (Conditions.mark_unknown t r m now s) cs.happy =
      some top)
    (htf : top.is_false = true) :
    ConditionManager.mark_unknown cs t r m now s =
      some (Conditions.mark_unknown t r m now s) := by
  simp only [ConditionManager.mark_unknown, ConditionManager.get_top_level_condition,
    hd, hdf, htop, htf, Bool.not_true, if_true, Bool.false_eq_true, if_false]

theorem mark_unknown_eq_dep_not_false (cs : ConditionSet C) (t : C) (r : String)
    (m : Option String) (now : Nat) (s : Conditions C) (d : Condition C)
    (hd : ConditionManager.find_unhappy_dependent cs
        (Conditions.mark_unknown t r m now s) = some d)
    (hdf : d.is_false = false) :
    ConditionManager.mark_unknown cs t r m now s =
      some (Conditions.mark_unknown t r m now s) := by
  simp only [ConditionManager.mark_unknown, hd, hdf, Bool.false_eq_true, if_false]

theorem mark_unknown_eq_none_terminal (cs : ConditionSet C) (t : C) (r : String)
    (m : Option String) (now : Nat) (s : Conditions C)
    (hd : ConditionManager.find_unhappy_dependent cs
        (Conditions.mark_unknown t r m now s) = none)
    (hterm : cs.is_terminal t = true) :
    ConditionManager.mark_unknown cs t r m now s =
      some (Conditions.mark_unknown cs.happy r m now
        (Conditions.mark_unknown t r m now s)) := by
  simp only [ConditionManager.mark_unknown, hd, hterm, if_true]

theorem mark_unknown_eq_none_not_terminal (cs : ConditionSet C) (t : C) (r : String)
    (m : Option String) (now : Nat) (s : Conditions C)
    (hd : ConditionManager.find_unhappy_dependent cs
        (Conditions.mark_unknown t r m now s) = none)
    (hterm : cs.is_terminal t = false) :
    ConditionManager.mark_unknown cs t r m now s =
      some (Conditions.mark_unknown t r m now s) := by
  simp only [ConditionManager.mark_unknown, hd, hterm, Bool.false_eq_true, if_false]

/-- A condition found by type lookup has that type. -/
theorem get_cond_type (s : Conditions C) (t : C) (e : Condition C)
    (h : Conditions.get_cond s t = some e) : e.type_ = t := by
  have hp := List.find?_some h
  simpa using hp

/-- A stored entry of the wanted type makes the lookup succeed. -/
theorem get_cond_isSome_of_mem (s : Conditions C) (t : C) (x : Condition C)
    (hx : x ∈ s) (hxt : x.type_ = t) : ∃ e, Conditions.get_cond s t = some e := by
  rcases hg : Conditions.get_cond s t with _ | e
  · exfalso
    rw [Conditions.get_cond, List.find?_eq_none] at hg
    exact (by simpa using hg x hx : ¬ x.type_ = t) hxt
  · exact ⟨e, rfl⟩

/-- On an aggregation-consistent store, recompute_happiness is a no-op, given
a store with the same candidates and the same stored happy condition. -/
theorem recompute_noop_of_consistent (cs : ConditionSet C) (t : C) (now : Nat)
    (s s1 : Conditions C)
    (hfilter : s1.filter (isCandidate cs) = s.filter (isCandidate cs))
    (hgc : Conditions.get_cond s1 cs.happy = Conditions.get_cond s cs.happy)
    (hcons : happyConsistent cs s) :
    ConditionManager.recompute_happiness cs t now s1 = s1 := by
  have hfind : ConditionManager.find_unhappy_dependent cs s1 =
      ConditionManager.find_unhappy_dependent cs s := by
    rw [ConditionManager.find_unhappy_dependent,
      ConditionManager.find_unhappy_dependent, hfilter]
  rcases hf : ConditionManager.find_unhappy_dependent cs s with _ | d
  · simp only [happyConsistent, hf] at hcons
    obtain ⟨h, hh, hst, hsev, hr, hm⟩ := hcons
    simp only [ConditionManager.recompute_happiness, hfind, hf]
    by_cases ht : t = cs.happy
    · rw [if_pos ht]
    · rw [if_neg ht]
      apply set_cond_keep now _ s1 h
      · show Conditions.get_cond s1 cs.happy = some h
        rw [hgc]; exact hh
      · exact ⟨get_cond_type s cs.happy h hh, hst, by rw [hsev, severity_happy],
          hr, hm⟩
  · simp only [happyConsistent, hf] at hcons
    obtain ⟨h, hh, hst, hsev, hr, hm⟩ := hcons
    simp only [ConditionManager.recompute_happiness, hfind, hf]
    apply set_cond_keep now _ s1 h
    · show Conditions.get_cond s1 cs.happy = some h
      rw [hgc]; exact hh
    · exact ⟨get_cond_type s cs.happy h hh, hst, by rw [hsev, severity_happy],
        hr, hm⟩

/-! Claim theorems. -/

/-- C1: after mark_true(t) or mark_true_with_reason(t, reason, message), the
recompute runs as specified: if find_unhappy_dependent returns d the happy
condition is upserted with d's status, reason and message and severity Error;
otherwise, if t is not the happy type, the happy condition is upserted True
with severity Error and cleared reason/message; if t is the happy type and no
dependent is unhappy the store is left exactly as the mark left it. -/
theorem c1_mark_true_recompute (cs : ConditionSet C) (t : C) (now : Nat)
    (s : Conditions C) (r : String) (m : Option String) :
    ConditionManager.mark_true cs t now s =
      recomputeSpec cs t now (Conditions.mark_true t now s) ∧
    ConditionManager.mark_true_with_reason cs t r m now s =
      recomputeSpec cs t now (Conditions.mark_true_with_reason t r m now s) := by
  constructor
  · rw [ConditionManager.mark_true, recompute_eq_spec]
  · rw [ConditionManager.mark_true_with_reason, recompute_eq_spec]

/-- C2: mark_false(t, reason, message) stores t as False with the given reason
and message; exactly when t is a dependent it also immediately forces the
happy condition False with the same reason and message; when t is neither a
dependent nor the happy type the happy condition is untouched. -/
theorem c2_mark_false (cs : ConditionSet C) (t : C) (r : String)
    (m : Option String) (now : Nat) (s : Conditions C)
    (hval : cs.happy ∉ cs.dependents) :
    (∃ e, Conditions.get_cond (ConditionManager.mark_false cs t r m now s) t =
        some e ∧ e.status = ConditionStatus.False ∧ e.reason = some r ∧
        e.message = m) ∧
    (t ∈ cs.dependents →
      ∃ h, Conditions.get_cond (ConditionManager.mark_false cs t r m now s)
          cs.happy = some h ∧ h.status = ConditionStatus.False ∧
          h.reason = some r ∧ h.message = m) ∧
    (t ∉ cs.dependents → t ≠ cs.happy →
      Conditions.get_cond (ConditionManager.mark_false cs t r m now s) cs.happy =
        Conditions.get_cond s cs.happy) := by
  rw [ConditionManager.mark_false]
  by_cases hd : t ∈ cs.dependents
  · have hth : t ≠ cs.happy := fun heq => hval (heq ▸ hd)
    rw [if_pos hd]
    refine ⟨?_, fun _ => ?_, fun hnd _ => absurd hd hnd⟩
    · obtain ⟨e, he, hv⟩ := get_cond_set_cond_self now
        { type_ := t, status := ConditionStatus.False,
          severity := ConditionSeverity.Error, last_transition_time := some now,
          reason := some r, message := m } s
      refine ⟨e, ?_, hv.2.1, hv.2.2.2.1, hv.2.2.2.2⟩
      rw [Conditions.mark_false, Conditions.mark_false]
      rw [get_cond_set_cond_ne _ _ _ _ hth]
      exact he
    · obtain ⟨h, hh, hv⟩ := get_cond_set_cond_self now
        { type_ := cs.happy, status := ConditionStatus.False,
          severity := ConditionSeverity.Error, last_transition_time := some now,
          reason := some r, message := m }
        (Conditions.mark_false t r m now s)
      exact ⟨h, hh, hv.2.1, hv.2.2.2.1, hv.2.2.2.2⟩
  · rw [if_neg hd]
    refine ⟨?_, fun hdep => absurd hdep hd, fun _ hth => ?_⟩
    · obtain ⟨e, he, hv⟩ := get_cond_set_cond_self now
        { type_ := t, status := ConditionStatus.False,
          severity := ConditionSeverity.Error, last_transition_time := some now,
          reason := some r, message := m } s
      exact ⟨e, he, hv.2.1, hv.2.2.2.1, hv.2.2.2.2⟩
    · exact get_cond_set_cond_ne now _ s cs.happy (fun heq => hth heq.symm)

theorem c2_witness :
    ∃ h, Conditions.get_cond
        (ConditionManager.mark_false csW 1 "X" (some "boom") 5
          [condW 0 ConditionStatus.True (some 0), condW 1 ConditionStatus.True (some 0),
            condW 2 ConditionStatus.True (some 0)]) 0 = some h ∧
      h.status = ConditionStatus.False ∧ h.reason = some "X" ∧
      h.message = some "boom" :=
  (c2_mark_false csW 1 "X" (some "boom") 5
    [condW 0 ConditionStatus.True (some 0), condW 1 ConditionStatus.True (some 0),
      condW 2 ConditionStatus.True (some 0)] (by decide)).2.1 (by decide)

/-- C5: find_unhappy_dependent considers exactly the stored conditions whose
type is terminal, is not the happy type, and whose status is not True; among
them it selects by the claim's ordering (status False outranks Unknown, a
later last_transition_time outranks an earlier one within equal status, and
remaining ties, including incomparable timestamps, keep the first condition in
store order); it returns none exactly when no such condition exists; and its
result is one of the stored conditions (the scan is a pure function of the
store in this embedding, so the store and its order are unchanged). -/
theorem c5_find_spec (cs : ConditionSet C) (s : Conditions C) :
    ConditionManager.find_unhappy_dependent cs s = specSelect cs s ∧
    (ConditionManager.find_unhappy_dependent cs s = none ↔
      ∀ c ∈ s, ¬(cs.is_terminal c.type_ = true ∧ c.type_ ≠ cs.happy ∧
        c.status ≠ ConditionStatus.True)) ∧
    (∀ d, ConditionManager.find_unhappy_dependent cs s = some d → d ∈ s) := by
  have hfeq : s.filter (specCandidate cs) = s.filter (isCandidate cs) :=
    List.filter_congr (fun x _ => specCandidate_eq_isCandidate cs x)
  refine ⟨?_, ?_, fun d hd => (find_some_mem cs s d hd).1⟩
  · rcases hf : s.filter (isCandidate cs) with _ | ⟨h, t⟩
    · simp only [ConditionManager.find_unhappy_dependent, specSelect, hfeq, hf]
    · have hall : ∀ x ∈ h :: t, x.status ≠ ConditionStatus.True := by
        intro x hx
        have hxf : x ∈ s.filter (isCandidate cs) := by rw [hf]; exact hx
        exact ((isCandidate_iff cs x).mp (List.mem_filter.mp hxf).2).2.2
      simp only [ConditionManager.find_unhappy_dependent, specSelect, hfeq, hf]
      rw [foldl_pick_eq_spec t h hall]
  · rw [find_none_iff]
    constructor
    · intro hnil c hc hprop
      have hcand : isCandidate cs c = true :=
        (isCandidate_iff cs c).mpr ⟨hprop.2.1, hprop.1, hprop.2.2⟩
      have hmem := List.mem_filter.mpr ⟨hc, hcand⟩
      rw [hnil] at hmem
      cases hmem
    · intro hall
      rw [List.filter_eq_nil_iff]
      intro c hc hcand
      have hp := (isCandidate_iff cs c).mp hcand
      exact hall c hc ⟨hp.2.1, hp.1, hp.2.2⟩

theorem c5_witness :
    condW 1 ConditionStatus.False (some 3) ∈
      ([condW 0 ConditionStatus.False (some 0), condW 1 ConditionStatus.False (some 1),
        condW 1 ConditionStatus.Unknown (some 2), condW 1 ConditionStatus.False (some 3),
        condW 0 ConditionStatus.False (some 2)] : Conditions Nat) :=
  (c5_find_spec csW
    [condW 0 ConditionStatus.False (some 0), condW 1 ConditionStatus.False (some 1),
      condW 1 ConditionStatus.Unknown (some 2), condW 1 ConditionStatus.False (some 3),
      condW 0 ConditionStatus.False (some 2)]).2.2
    (condW 1 ConditionStatus.False (some 3)) (by decide)

/-- C7: the upsert is idempotent on value-equal input: if a stored condition of
the incoming type agrees with the incoming condition on every field except
last_transition_time, set_cond changes nothing at all; otherwise the stored
condition is replaced in place with the incoming values restamped to now; a
type not yet present is stamped with now and appended; and a second mark_true
with identical payload is a complete no-op, so last_transition_time changes
only on the first call. -/
theorem c7_set_cond_upsert (now : Nat) (c : Condition C) (s : Conditions C) :
    (Conditions.get_cond s c.type_ = none →
      Conditions.set_cond now c s =
        s ++ [{ c with last_transition_time := some now }]) ∧
    (∀ e, Conditions.get_cond s c.type_ = some e → valueEq e c →
      Conditions.set_cond now c s = s) ∧
    (∀ e, Conditions.get_cond s c.type_ = some e → ¬ valueEq e c →
      ∃ p q, s = p ++ e :: q ∧ (∀ x ∈ p, x.type_ ≠ c.type_) ∧
        Conditions.set_cond now c s =
          p ++ { c with last_transition_time := some now } :: q) ∧
    (∀ (t : C) (now2 : Nat),
      Conditions.mark_true t now2 (Conditions.mark_true t now s) =
        Conditions.mark_true t now s) :=
  ⟨set_cond_append now c s,
   fun e he hv => set_cond_keep now c s e he hv,
   fun e he hv => set_cond_swap now c s e he hv,
   fun t now2 => set_cond_idem now now2
     { type_ := t, status := ConditionStatus.True,
       severity := ConditionSeverity.Error, last_transition_time := some now,
       reason := none, message := none }
     { type_ := t, status := ConditionStatus.True,
       severity := ConditionSeverity.Error, last_transition_time := some now2,
       reason := none, message := none }
     ⟨rfl, rfl, rfl, rfl, rfl⟩ s⟩

theorem c7_witness :
    Conditions.set_cond 5 (condW 1 ConditionStatus.True none)
        [condW 0 ConditionStatus.Unknown (some 0)] =
      [condW 0 ConditionStatus.Unknown (some 0),
        { condW 1 ConditionStatus.True none with last_transition_time := some 5 }] :=
  (c7_set_cond_upsert 5 (condW 1 ConditionStatus.True none)
    [condW 0 ConditionStatus.Unknown (some 0)]).1 (by decide)

/-- C8: every manager mutation preserves uniqueness-by-type and first-seen
order: an upsert of an existing type rewrites its entry in place without
moving it, only brand-new types are appended at the end, and any sequence of
mutations from a store with duplicate-free types keeps the type sequence
duplicate free and only ever extends it on the right. -/
theorem c8_store_order (cs : ConditionSet C) :
    (∀ (now : Nat) (c : Condition C) (s : Conditions C),
      typesOf (Conditions.set_cond now c s) =
        if c.type_ ∈ typesOf s then typesOf s else typesOf s ++ [c.type_]) ∧
    (∀ (ms : List (Nat × Mutation C)) (s s' : Conditions C),
      (typesOf s).Nodup → applyMutations cs ms s = some s' →
      ((typesOf s').Nodup ∧ ∃ new, typesOf s' = typesOf s ++ new)) :=
  ⟨typesOf_set_cond,
   fun ms s s' hnd happ =>
     ⟨(storeExtends_applyMutations cs ms s s' happ).2 hnd,
      (storeExtends_applyMutations cs ms s s' happ).1⟩⟩

theorem c8_witness :
    (typesOf [condW 0 ConditionStatus.True (some 1),
      condW 1 ConditionStatus.True (some 1)]).Nodup ∧
    ∃ new, typesOf [condW 0 ConditionStatus.True (some 1),
        condW 1 ConditionStatus.True (some 1)] =
      typesOf [condW 0 ConditionStatus.Unknown (some 0)] ++ new :=
  (c8_store_order csW).2 [(1, Mutation.mtrue 1)]
    [condW 0 ConditionStatus.Unknown (some 0)]
    [condW 0 ConditionStatus.True (some 1), condW 1 ConditionStatus.True (some 1)]
    (by decide) (by decide)

/-- C3 counterexample: with happy 0 and dependents 1 and 2, from an all-True
store, mark_unknown on dependent 2 leaves find_unhappy_dependent yielding a
dependent (the one just marked, whose status is Unknown, not False); 2 is
terminal; yet the happy condition stays True instead of being set to Unknown
with the given reason, as the claim's otherwise-branch reads. -/
theorem c3_counterexample :
    (ConditionManager.mark_unknown csW 2 "r" none 5
        [condW 0 ConditionStatus.True (some 0), condW 1 ConditionStatus.True (some 0),
          condW 2 ConditionStatus.True (some 0)]).map
        (fun s => (Conditions.get_cond s 0).map Condition.status) =
      some (some ConditionStatus.True) ∧
    csW.is_terminal 2 = true ∧
    (ConditionManager.find_unhappy_dependent csW
        (Conditions.mark_unknown 2 "r" none 5
          [condW 0 ConditionStatus.True (some 0), condW 1 ConditionStatus.True (some 0),
            condW 2 ConditionStatus.True (some 0)])).map Condition.status =
      some ConditionStatus.Unknown := by
  decide

/-- C3 amended: mark_unknown(t, reason, message) upserts t Unknown with the
given reason/message, giving an intermediate store s1; then, if
find_unhappy_dependent on s1 yields a False dependent and the stored happy
condition of s1 is not False, the happy condition is escalated to False with
the given reason/message; if it yields a False dependent while the happy
condition is already False, or yields a dependent that is not False, the
result is exactly s1 and the happy condition is untouched; only if it yields
no condition at all and t is terminal is the happy condition set to Unknown
with the given reason/message; and if it yields no condition and t is not
terminal the result is exactly s1. -/
theorem c3_amended_mark_unknown (cs : ConditionSet C) (t : C) (r : String)
    (m : Option String) (now : Nat) (s s1 : Conditions C)
    (hs1 : s1 = Conditions.mark_unknown t r m now s) :
    (∀ d top, ConditionManager.find_unhappy_dependent cs s1 = some d →
      d.status = ConditionStatus.False →
      Conditions.get_cond s1 cs.happy = some top →
      (top.status ≠ ConditionStatus.False →
        ∃ s2, ConditionManager.mark_unknown cs t r m now s = some s2 ∧
          ∃ h, Conditions.get_cond s2 cs.happy = some h ∧
            h.status = ConditionStatus.False ∧ h.reason = some r ∧
            h.message = m) ∧
      (top.status = ConditionStatus.False →
        ConditionManager.mark_unknown cs t r m now s = some s1)) ∧
    (∀ d, ConditionManager.find_unhappy_dependent cs s1 = some d →
      d.status ≠ ConditionStatus.False →
      ConditionManager.mark_unknown cs t r m now s = some s1) ∧
    (ConditionManager.find_unhappy_dependent cs s1 = none →
      (cs.is_terminal t = true →
        ∃ s2, ConditionManager.mark_unknown cs t r m now s = some s2 ∧
          ∃ h, Conditions.get_cond s2 cs.happy = some h ∧
            h.status = ConditionStatus.Unknown ∧ h.reason = some r ∧
            h.message = m) ∧
      (cs.is_terminal t = false →
        ConditionManager.mark_unknown cs t r m now s = some s1)) := by
  subst hs1
  refine ⟨?_, ?_, ?_⟩
  · intro d top hd hdf htop
    have hdb : d.is_false = true := by simp [Condition.is_false, hdf]
    constructor
    · intro htf
      have htb : top.is_false = false := by simp [Condition.is_false, htf]
      refine ⟨ConditionManager.mark_false cs cs.happy r m now
        (Conditions.mark_unknown t r m now s),
        mark_unknown_eq_escalate cs t r m now s d top hd hdb htop htb, ?_⟩
      exact get_cond_man_mark_false_self cs r m now _
    · intro htf
      have htb : top.is_false = true := by simp [Condition.is_false, htf]
      exact mark_unknown_eq_top_false cs t r m now s d top hd hdb htop htb
  · intro d hd hdf
    have hdb : d.is_false = false := by simp [Condition.is_false, hdf]
    exact mark_unknown_eq_dep_not_false cs t r m now s d hd hdb
  · intro hnone
    constructor
    · intro hterm
      refine ⟨Conditions.mark_unknown cs.happy r m now
        (Conditions.mark_unknown t r m now s),
        mark_unknown_eq_none_terminal cs t r m now s hnone hterm, ?_⟩
      obtain ⟨h, hh, hv⟩ := get_cond_set_cond_self now
        { type_ := cs.happy, status := ConditionStatus.Unknown,
          severity := ConditionSeverity.Error, last_transition_time := some now,
          reason := some r, message := m }
        (Conditions.mark_unknown t r m now s)
      exact ⟨h, hh, hv.2.1, hv.2.2.2.1, hv.2.2.2.2⟩
    · intro hterm
      exact mark_unknown_eq_none_not_terminal cs t r m now s hnone hterm

theorem c3_witness :
    ∃ s2, ConditionManager.mark_unknown csW 2 "r" (some "msg") 5
        [condW 0 ConditionStatus.True (some 0), condW 1 ConditionStatus.False (some 0),
          condW 2 ConditionStatus.True (some 0)] = some s2 ∧
      ∃ h, Conditions.get_cond s2 0 = some h ∧
        h.status = ConditionStatus.False ∧ h.reason = some "r" ∧
        h.message = some "msg" :=
  (((c3_amended_mark_unknown csW 2 "r" (some "msg") 5
      [condW 0 ConditionStatus.True (some 0), condW 1 ConditionStatus.False (some 0),
        condW 2 ConditionStatus.True (some 0)] _ rfl).1
    (condW 1 ConditionStatus.False (some 0)) (condW 0 ConditionStatus.True (some 0))
    (by decide) (by decide) (by decide)).1 (by decide))

/-- C4: Unknown never masks False: from any store in which some dependent has
status False and a happy condition is stored, marking any other condition type
Unknown leaves the stored happy condition with status False afterwards; it
never regresses to Unknown. -/
theorem c4_unknown_never_masks_false (cs : ConditionSet C) (b : C) (r : String)
    (m : Option String) (now : Nat) (s : Conditions C) (a : Condition C)
    (hval : cs.happy ∉ cs.dependents)
    (ha : a ∈ s) (hadep : a.type_ ∈ cs.dependents)
    (haf : a.status = ConditionStatus.False) (hab : b ≠ a.type_)
    (hhappy : ∃ h0, Conditions.get_cond s cs.happy = some h0) :
    ∃ s2, ConditionManager.mark_unknown cs b r m now s = some s2 ∧
      ∃ h, Conditions.get_cond s2 cs.happy = some h ∧
        h.status = ConditionStatus.False := by
  obtain ⟨h0, hh0⟩ := hhappy
  have ha1 : a ∈ Conditions.mark_unknown b r m now s :=
    mem_set_cond_of_ne now _ s a ha (fun heq => hab heq.symm)
  have hcand : isCandidate cs a = true := by
    refine (isCandidate_iff cs a).mpr ⟨fun heq => hval (heq ▸ hadep), ?_, ?_⟩
    · rw [ConditionSet.is_terminal]
      simp [hadep]
    · rw [haf]
      intro hcontra
      cases hcontra
  obtain ⟨d, hd, hdf⟩ := find_false_of_mem cs _ a ha1 hcand haf
  have hdb : d.is_false = true := by simp [Condition.is_false, hdf]
  have htopex : ∃ top, Conditions.get_cond (Conditions.mark_unknown b r m now s)
      cs.happy = some top := by
    by_cases hbh : cs.happy = b
    · obtain ⟨e, he, _⟩ := get_cond_set_cond_self now
        { type_ := b, status := ConditionStatus.Unknown,
          severity := ConditionSeverity.Error, last_transition_time := some now,
          reason := some r, message := m } s
      refine ⟨e, ?_⟩
      rw [hbh]
      exact he
    · refine ⟨h0, ?_⟩
      rw [Conditions.mark_unknown, get_cond_set_cond_ne now _ s cs.happy hbh]
      exact hh0
  obtain ⟨top, htop⟩ := htopex
  by_cases htf : top.is_false = true
  · refine ⟨Conditions.mark_unknown b r m now s,
      mark_unknown_eq_top_false cs b r m now s d top hd hdb htop htf,
      top, htop, ?_⟩
    simpa [Condition.is_false] using htf
  · have htb : top.is_false = false := by
      cases hx : top.is_false
      · rfl
      · exact absurd hx htf
    refine ⟨ConditionManager.mark_false cs cs.happy r m now
      (Conditions.mark_unknown b r m now s),
      mark_unknown_eq_escalate cs b r m now s d top hd hdb htop htb, ?_⟩
    obtain ⟨h, hh, hf, _, _⟩ := get_cond_man_mark_false_self cs r m now
      (Conditions.mark_unknown b r m now s)
    exact ⟨h, hh, hf⟩

theorem c4_witness :
    ∃ s2, ConditionManager.mark_unknown csW 2 "r" none 7
        [condW 0 ConditionStatus.False (some 0), condW 1 ConditionStatus.False (some 0),
          condW 2 ConditionStatus.True (some 0)] = some s2 ∧
      ∃ h, Conditions.get_cond s2 0 = some h ∧
        h.status = ConditionStatus.False :=
  c4_unknown_never_masks_false csW 2 "r" none 7
    [condW 0 ConditionStatus.False (some 0), condW 1 ConditionStatus.False (some 0),
      condW 2 ConditionStatus.True (some 0)]
    (condW 1 ConditionStatus.False (some 0))
    (by decide) (by decide) (by decide) (by decide) (by decide)
    ⟨condW 0 ConditionStatus.False (some 0), by decide⟩

/-- C6 counterexample: type 5 is neither a dependent nor the happy type, yet
mark_true(5) on a store whose dependent 1 is False while the stored happy
condition is still True rewrites the stored happy condition from True to
False, so the happy entry does change. -/
theorem c6_counterexample :
    csW.is_terminal 5 = false ∧
    (Conditions.get_cond [condW 0 ConditionStatus.True (some 0),
        { type_ := 1, status := ConditionStatus.False,
          severity := ConditionSeverity.Error, last_transition_time := some 1,
          reason := some "x", message := some "y" },
        condW 5 ConditionStatus.Unknown (some 0)] 0).map Condition.status =
      some ConditionStatus.True ∧
    (Conditions.get_cond (ConditionManager.mark_true csW 5 9
        [condW 0 ConditionStatus.True (some 0),
          { type_ := 1, status := ConditionStatus.False,
            severity := ConditionSeverity.Error, last_transition_time := some 1,
            reason := some "x", message := some "y" },
          condW 5 ConditionStatus.Unknown (some 0)]) 0).map Condition.status =
      some ConditionStatus.False := by
  decide

/-- C6 amended: for every t that is neither a dependent nor the happy type,
mark_false(t, reason, message) leaves the stored happy condition unchanged for
every store; mark_true(t) and mark_true_with_reason(t, reason, message) leave
the stored happy condition unchanged for every aggregation-consistent store
(one whose happy condition already agrees, in all fields but the timestamp,
with what recompute_happiness would write); on an inconsistent store mark_true
may rewrite the happy condition. -/
theorem c6_non_terminal_independence (cs : ConditionSet C) (t : C) (r : String)
    (m : Option String) (now : Nat) (s : Conditions C)
    (hdep : t ∉ cs.dependents) (hhap : t ≠ cs.happy) :
    (Conditions.get_cond (ConditionManager.mark_false cs t r m now s) cs.happy =
      Conditions.get_cond s cs.happy) ∧
    (happyConsistent cs s →
      Conditions.get_cond (ConditionManager.mark_true cs t now s) cs.happy =
        Conditions.get_cond s cs.happy) ∧
    (happyConsistent cs s →
      Conditions.get_cond (ConditionManager.mark_true_with_reason cs t r m now s)
          cs.happy = Conditions.get_cond s cs.happy) := by
  have hht : cs.happy ≠ t := fun heq => hhap heq.symm
  have hterm : cs.is_terminal t = false := by
    rw [ConditionSet.is_terminal]
    simp [hdep, hht]
  refine ⟨?_, ?_, ?_⟩
  · rw [ConditionManager.mark_false, if_neg hdep]
    exact get_cond_set_cond_ne now _ s cs.happy hht
  · intro hcons
    have hgc : Conditions.get_cond (Conditions.mark_true t now s) cs.happy =
        Conditions.get_cond s cs.happy :=
      get_cond_set_cond_ne now _ s cs.happy hht
    rw [ConditionManager.mark_true,
      recompute_noop_of_consistent cs t now s (Conditions.mark_true t now s)
        (filter_isCandidate_set_cond_not_terminal cs now _ s hterm) hgc hcons]
    exact hgc
  · intro hcons
    have hgc : Conditions.get_cond (Conditions.mark_true_with_reason t r m now s)
        cs.happy = Conditions.get_cond s cs.happy :=
      get_cond_set_cond_ne now _ s cs.happy hht
    rw [ConditionManager.mark_true_with_reason,
      recompute_noop_of_consistent cs t now s
        (Conditions.mark_true_with_reason t r m now s)
        (filter_isCandidate_set_cond_not_terminal cs now _ s hterm) hgc hcons]
    exact hgc

theorem c6_witness :
    Conditions.get_cond (ConditionManager.mark_true csW 5 9
        [condW 0 ConditionStatus.True (some 0), condW 1 ConditionStatus.True (some 0),
          condW 2 ConditionStatus.True (some 0), condW 5 ConditionStatus.Unknown (some 0)]) 0 =
      Conditions.get_cond
        [condW 0 ConditionStatus.True (some 0), condW 1 ConditionStatus.True (some 0),
          condW 2 ConditionStatus.True (some 0), condW 5 ConditionStatus.Unknown (some 0)] 0 :=
  (c6_non_terminal_independence csW 5 "r" none 9
    [condW 0 ConditionStatus.True (some 0), condW 1 ConditionStatus.True (some 0),
      condW 2 ConditionStatus.True (some 0), condW 5 ConditionStatus.Unknown (some 0)]
    (by decide) (by decide)).2.1
    ⟨condW 0 ConditionStatus.True (some 0), by decide, by decide, by decide,
      by decide, by decide⟩

/-- C9 counterexample: a seed holding the type 1 twice (duplicate types) and
containing the happy type is accepted unchanged by with_conditions; it is not
rejected at setup as the claim states. -/
theorem c9_counterexample :
    Conditions.with_conditions 0
        [condW 0 ConditionStatus.Unknown none, condW 1 ConditionStatus.Unknown none,
          condW 1 ConditionStatus.Unknown none] =
      some [condW 0 ConditionStatus.Unknown none, condW 1 ConditionStatus.Unknown none,
        condW 1 ConditionStatus.Unknown none] ∧
    ¬ (typesOf [condW 0 ConditionStatus.Unknown none,
        condW 1 ConditionStatus.Unknown none,
        condW 1 ConditionStatus.Unknown none]).Nodup := by
  decide

/-- C9 amended: configuration errors at setup: ConditionSet::new fails exactly
when the dependents contain the happy type; building a store from an explicit
seed fails exactly when no condition of the happy type is present (duplicate
types are not checked and are accepted); and over a valid store, one holding a
condition of the happy type, mutation never fails at runtime: mark_true,
mark_true_with_reason and mark_false are total functions, and mark_unknown
always returns a store. -/
theorem c9_setup_errors (happy : C) (dependents : List C) (cs : ConditionSet C)
    (seed : Conditions C) (t : C) (r : String) (m : Option String) (now : Nat)
    (s : Conditions C) :
    (ConditionSet.new happy dependents = none ↔ happy ∈ dependents) ∧
    (Conditions.with_conditions happy seed = none ↔
      ∀ c ∈ seed, c.type_ ≠ happy) ∧
    ((∃ x ∈ s, x.type_ = cs.happy) →
      (ConditionManager.mark_unknown cs t r m now s).isSome = true) := by
  refine ⟨?_, ?_, ?_⟩
  · rw [ConditionSet.new]
    by_cases h : happy ∈ dependents <;> simp [h]
  · constructor
    · intro hnone c hc heq
      by_cases hany : seed.any (fun c => decide (c.type_ = happy)) = true
      · rw [Conditions.with_conditions, if_pos hany] at hnone
        cases hnone
      · exact hany (List.any_eq_true.mpr ⟨c, hc, by simp [heq]⟩)
    · intro hall
      have hany : ¬ (seed.any (fun c => decide (c.type_ = happy)) = true) := by
        rw [List.any_eq_true]
        rintro ⟨c, hc, hp⟩
        exact hall c hc (by simpa using hp)
      rw [Conditions.with_conditions, if_neg hany]
  · rintro ⟨x, hx, hxt⟩
    have htopex : ∃ top, Conditions.get_cond (Conditions.mark_unknown t r m now s)
        cs.happy = some top := by
      by_cases hth : cs.happy = t
      · obtain ⟨e, he, _⟩ := get_cond_set_cond_self now
          { type_ := t, status := ConditionStatus.Unknown,
            severity := ConditionSeverity.Error, last_transition_time := some now,
            reason := some r, message := m } s
        refine ⟨e, ?_⟩
        rw [hth]
        exact he
      · obtain ⟨e, he⟩ := get_cond_isSome_of_mem s cs.happy x hx hxt
        refine ⟨e, ?_⟩
        rw [Conditions.mark_unknown, get_cond_set_cond_ne now _ s cs.happy hth]
        exact he
    obtain ⟨top, htop⟩ := htopex
    rcases hfind : ConditionManager.find_unhappy_dependent cs
        (Conditions.mark_unknown t r m now s) with _ | d
    · by_cases hterm : cs.is_terminal t = true
      · rw [mark_unknown_eq_none_terminal cs t r m now s hfind hterm]
        rfl
      · have hterm2 : cs.is_terminal t = false := by
          revert hterm; cases cs.is_terminal t <;> simp
        rw [mark_unknown_eq_none_not_terminal cs t r m now s hfind hterm2]
        rfl
    · by_cases hdf : d.is_false = true
      · by_cases htf : top.is_false = true
        · rw [mark_unknown_eq_top_false cs t r m now s d top hfind hdf htop htf]
          rfl
        · have htb : top.is_false = false := by
            revert htf; cases top.is_false <;> simp
          rw [mark_unknown_eq_escalate cs t r m now s d top hfind hdf htop htb]
          rfl
      · have hdb : d.is_false = false := by
          revert hdf; cases d.is_false <;> simp
        rw [mark_unknown_eq_dep_not_false cs t r m now s d hfind hdb]
        rfl

theorem c9_witness :
    (ConditionManager.mark_unknown csW 1 "r" none 3
        [condW 0 ConditionStatus.Unknown (some 0), condW 1 ConditionStatus.Unknown (some 0),
          condW 2 ConditionStatus.Unknown (some 0)]).isSome = true :=
  (c9_setup_errors 0 [1, 2] csW [] 1 "r" none 3
    [condW 0 ConditionStatus.Unknown (some 0), condW 1 ConditionStatus.Unknown (some 0),
      condW 2 ConditionStatus.Unknown (some 0)]).2.2
    ⟨condW 0 ConditionStatus.Unknown (some 0), by decide, by decide⟩

/-- C10: when mark_unknown(t, reason, message) escalates the happy condition
to False (some dependent other than t has status False and the stored happy
condition was not already False), the happy condition receives the reason and
message passed to mark_unknown, those of the condition just marked Unknown,
and not those of the dependent that is actually False. -/
theorem c10_escalation_reason (cs : ConditionSet C) (b : C) (r : String)
    (m : Option String) (now : Nat) (s : Conditions C) (a h0 : Condition C)
    (hval : cs.happy ∉ cs.dependents)
    (ha : a ∈ s) (hadep : a.type_ ∈ cs.dependents)
    (haf : a.status = ConditionStatus.False) (hab : b ≠ a.type_)
    (hbh : b ≠ cs.happy)
    (hh0 : Conditions.get_cond s cs.happy = some h0)
    (hh0f : h0.status ≠ ConditionStatus.False) :
    ∃ s2, ConditionManager.mark_unknown cs b r m now s = some s2 ∧
      ∃ h, Conditions.get_cond s2 cs.happy = some h ∧
        h.status = ConditionStatus.False ∧ h.reason = some r ∧
        h.message = m := by
  have ha1 : a ∈ Conditions.mark_unknown b r m now s :=
    mem_set_cond_of_ne now _ s a ha (fun heq => hab heq.symm)
  have hcand : isCandidate cs a = true := by
    refine (isCandidate_iff cs a).mpr ⟨fun heq => hval (heq ▸ hadep), ?_, ?_⟩
    · rw [ConditionSet.is_terminal]
      simp [hadep]
    · rw [haf]
      intro hcontra
      cases hcontra
  obtain ⟨d, hd, hdf⟩ := find_false_of_mem cs _ a ha1 hcand haf
  have hdb : d.is_false = true := by simp [Condition.is_false, hdf]
  have htop : Conditions.get_cond (Conditions.mark_unknown b r m now s)
      cs.happy = some h0 := by
    rw [Conditions.mark_unknown,
      get_cond_set_cond_ne now _ s cs.happy (fun heq => hbh heq.symm)]
    exact hh0
  have htb : h0.is_false = false := by simp [Condition.is_false, hh0f]
  refine ⟨ConditionManager.mark_false cs cs.happy r m now
    (Conditions.mark_unknown b r m now s),
    mark_unknown_eq_escalate cs b r m now s d h0 hd hdb htop htb, ?_⟩
  exact get_cond_man_mark_false_self cs r m now _

theorem c10_witness :
    ∃ s2, ConditionManager.mark_unknown csW 2 "u" (some "um") 7
        [condW 0 ConditionStatus.True (some 0),
          { type_ := 1, status := ConditionStatus.False,
            severity := ConditionSeverity.Error, last_transition_time := some 1,
            reason := some "dep", message := some "depmsg" },
          condW 2 ConditionStatus.True (some 0)] = some s2 ∧
      ∃ h, Conditions.get_cond s2 0 = some h ∧
        h.status = ConditionStatus.False ∧ h.reason = some "u" ∧
        h.message = some "um" :=
  c10_escalation_reason csW 2 "u" (some "um") 7
    [condW 0 ConditionStatus.True (some 0),
      { type_ := 1, status := ConditionStatus.False,
        severity := ConditionSeverity.Error, last_transition_time := some 1,
        reason := some "dep", message := some "depmsg" },
      condW 2 ConditionStatus.True (some 0)]
    { type_ := 1, status := ConditionStatus.False,
      severity := ConditionSeverity.Error, last_transition_time := some 1,
      reason := some "dep", message := some "depmsg" }
    (condW 0 ConditionStatus.True (some 0))
    (by decide) (by decide) (by decide) (by decide) (by decide) (by decide)
    (by decide) (by decide)

end KnativeConditions
